import Mathlib

/-!
Verification development for the `webpicviewer` repository.

The repository serves a local filesystem over three HTTP GET endpoints
(`/api/fs/list`, `/api/fs/file`, `/api/fs/thumbnail`) and drives a
client-side image viewer with a prefetch scheduler.  This file gives a
shallow embedding of those four source files:

* `src/app/api/fs/file/route.ts`  — the file-streaming endpoint
  (`fileGET`) and the thumbnail endpoint (`thumbnailGET`);
* `src/app/api/fs/list/route.ts`  — the directory-listing endpoint
  (`listGET`);
* the client page — `preloadImages`, `openImageViewerWithPreload`,
  `navigateImage`.

Filesystem contents are a parameter (`FileSystem`); each endpoint
returns its HTTP response together with the ordered trace of filesystem
and image-processing operations it performed (`Effect`), so statements
such as "rejects before any filesystem call" are about the trace.
String and path computations (`path.resolve`, `path.join`,
`path.extname`, `String.prototype.startsWith`, `slice(1)`,
`toLowerCase`) are modelled on POSIX semantics over `List Char`.
-/

/-- JS `String.prototype.startsWith`: character-level prefix test. -/
def strStartsWith (s pre : String) : Bool :=
  pre.toList.isPrefixOf s.toList

/-- JS `String.prototype.slice(1)`: drop the first character. -/
def sliceOne (s : String) : String :=
  String.mk (s.toList.drop 1)

/-- JS `String.prototype.toLowerCase` restricted to ASCII case mapping. -/
def toLowerCase (s : String) : String :=
  String.mk (s.toList.map Char.toLower)

/-- Split a character list on `/`, keeping empty pieces. -/
def splitSlash : List Char → List Char → List (List Char)
  | [], cur => [cur.reverse]
  | c :: cs, cur =>
    if c = '/' then cur.reverse :: splitSlash cs []
    else splitSlash cs (c :: cur)

/-- The non-empty, non-`.` path segments of a POSIX path string. -/
def segsOf (s : String) : List String :=
  ((splitSlash s.toList []).map String.mk).filter
    (fun seg => seg != "" && seg != ".")

/-- Resolve `..` segments of an absolute path against a reversed stack of
already-kept segments; a `..` at the root is dropped, as in Node's
`path.normalize` for absolute paths. -/
def resolveDots : List String → List String → List String
  | acc, [] => acc.reverse
  | acc, seg :: rest =>
    if seg = ".." then resolveDots (acc.drop 1) rest
    else resolveDots (seg :: acc) rest

/-- Normalize an absolute POSIX path: drop empty and `.` segments,
resolve `..`, and re-join with single slashes and no trailing slash. -/
def normAbs (s : String) : String :=
  "/" ++ String.intercalate "/" (resolveDots [] (segsOf s))

/-- Whether a POSIX path string is absolute. -/
def isAbs (s : String) : Bool :=
  strStartsWith s "/"

/-- Node `path.resolve(base, p)` for an absolute `base`: an absolute `p`
wins, otherwise `p` is joined onto `base`; either way the result is
normalized.  `path.resolve(p)` with one argument is the same with
`base` the process working directory. -/
def pathResolve (base p : String) : String :=
  if isAbs p then normAbs p else normAbs (base ++ "/" ++ p)

/-- Node `path.join(a, b)` for an absolute first argument, as used at
every call site in the sources. -/
def pathJoin (a b : String) : String :=
  normAbs (a ++ "/" ++ b)

/-- Node `path.relative(fromSegs, toSegs)` on resolved segment lists:
drop the common prefix, then climb with `..` and descend. -/
def relSegs : List String → List String → List String
  | [], ts => ts
  | f :: fs, [] => (f :: fs).map (fun _ => "..")
  | f :: fs, t :: ts =>
    if f = t then relSegs fs ts
    else ((f :: fs).map (fun _ => "..")) ++ t :: ts

/-- Node `path.relative(fromP, toP)` for absolute arguments. -/
def pathRelative (fromP toP : String) : String :=
  String.intercalate "/"
    (relSegs (resolveDots [] (segsOf fromP)) (resolveDots [] (segsOf toP)))

/-- The basename of a POSIX path string: the part after the last `/`. -/
def basenameOf (s : String) : String :=
  ((splitSlash s.toList []).map String.mk).getLastD ""

/-- Node `path.extname`: the suffix of the basename from its last `.`,
empty when the only `.` is the leading character or there is none. -/
def extname (s : String) : String :=
  let b := (basenameOf s).toList
  match b.reverse.findIdx? (fun c => c == '.') with
  | none => ""
  | some k =>
    let i := b.length - 1 - k
    if i = 0 then "" else String.mk (b.drop i)

/-! ## Server-side data model -/

/-- Process-wide configuration read by the route handlers: the working
directory (`process.cwd()`), the resolved home directory
(`os.homedir()`), and the raw `ALLOW_OUTSIDE_ROOT` environment
variable. -/
structure Env where
  cwd : String
  homeDir : String
  allowOutsideVar : Option String
deriving DecidableEq, Repr

/-- The check `process.env.ALLOW_OUTSIDE_ROOT === 'true' ||
process.env.ALLOW_OUTSIDE_ROOT === '1'` from the file route. -/
def allowOutside (v : Option String) : Bool :=
  v == some "true" || v == some "1"

/-- An abstract filesystem: `stat` returns `none` when the target is
missing and otherwise whether it is a directory; `readdir` lists
`(name, isDirectory)` pairs; `readFileBytes` gives a file's bytes. -/
structure FileSystem where
  stat : String → Option Bool
  readdir : String → List (String × Bool)
  readFileBytes : String → List Nat

/-- One observable filesystem or image-processing operation issued by a
route handler, in program order. -/
inductive Effect
  | statOp (p : String)
  | readdirOp (p : String)
  | readFileOp (p : String)
  | decodeResize
deriving DecidableEq, Repr

/-- The filesystem path an effect touches, when it has one. -/
def effPath : Effect → Option String
  | .statOp p => some p
  | .readdirOp p => some p
  | .readFileOp p => some p
  | .decodeResize => none

/-- One entry of the listing endpoint's JSON `items` array. -/
structure ListItem where
  name : String
  type : String
  path : String
  ext : String
deriving DecidableEq, Repr

instance : Inhabited ListItem := ⟨⟨"", "", "", ""⟩⟩

/-- An HTTP response of one of the three route handlers. -/
inductive ApiResponse
  | jsonError (status : Nat) (error : String)
  | fileBytes (status : Nat) (contentType : String) (body : List Nat)
  | listingOk (path : String) (absolutePath : String) (items : List ListItem)
deriving DecidableEq, Repr

/-- The HTTP status code of a response (`listingOk` is a 200). -/
def respStatus : ApiResponse → Nat
  | .jsonError s _ => s
  | .fileBytes s _ _ => s
  | .listingOk _ _ _ => 200

/-- The `Content-Type` header of a response, when one is set. -/
def respCT : ApiResponse → Option String
  | .fileBytes _ ct _ => some ct
  | _ => none

/-- JS falsiness of the `path` query parameter: absent or empty. -/
def missingParam : Option String → Bool
  | none => true
  | some s => s == ""

/-- The 403 message of the file route's confinement rejection. -/
def accessDeniedMsg : String :=
  "Access denied. To access outside the project root, set ALLOW_OUTSIDE_ROOT=true"

/-- The tilde expansion shared by the listing and thumbnail routes:
a path starting with `~` has that character replaced by
`path.join(homeDir, path.slice(1))`. -/
def expandTilde (homeDir p : String) : String :=
  if strStartsWith p "~" then pathJoin homeDir (sliceOne p) else p

/-- The resolved absolute path of the listing and thumbnail routes:
tilde expansion followed by `path.resolve` against the working
directory. -/
def tildeResolve (env : Env) (p : String) : String :=
  pathResolve env.cwd (expandTilde env.homeDir p)

/-- The extension → content-type table of the file route
(`getContentType`). -/
def getContentType (ext : String) : String :=
  if ext = ".jpg" then "image/jpeg"
  else if ext = ".jpeg" then "image/jpeg"
  else if ext = ".png" then "image/png"
  else if ext = ".gif" then "image/gif"
  else if ext = ".bmp" then "image/bmp"
  else if ext = ".webp" then "image/webp"
  else if ext = ".svg" then "image/svg+xml"
  else if ext = ".ico" then "image/x-icon"
  else if ext = ".tiff" then "image/tiff"
  else if ext = ".tif" then "image/tiff"
  else "application/octet-stream"

/-! ## File-streaming endpoint (`src/app/api/fs/file/route.ts`) -/

/-- The file route's `GET`: reject a falsy `path` parameter with 400;
resolve against the project root; unless `ALLOW_OUTSIDE_ROOT` lifts it,
reject with 403 any resolved path that does not pass the raw
`String.startsWith` prefix check against the root, before touching the
filesystem; then `stat`, reject directories (400) and missing files
(404), and stream the bytes with a table-derived content-type. -/
def fileGET (env : Env) (fsys : FileSystem) (pathParam : Option String) :
    ApiResponse × List Effect :=
  if missingParam pathParam then
    (.jsonError 400 "Missing path parameter", [])
  else
    let filePath := pathParam.getD ""
    let rootDir := env.cwd
    let absolutePath := pathResolve rootDir filePath
    if !allowOutside env.allowOutsideVar && !strStartsWith absolutePath rootDir then
      (.jsonError 403 accessDeniedMsg, [])
    else
      match fsys.stat absolutePath with
      | none => (.jsonError 404 "File not found", [.statOp absolutePath])
      | some true =>
        (.jsonError 400 "Path is a directory, not a file", [.statOp absolutePath])
      | some false =>
        let ext := toLowerCase (extname absolutePath)
        (.fileBytes 200 (getContentType ext) (fsys.readFileBytes absolutePath),
          [.statOp absolutePath, .readFileOp absolutePath])

/-! ## Thumbnail endpoint (second handler in `src/app/api/fs/file/route.ts`) -/

/-- The thumbnail route's image-extension allow-list. -/
def supportedImageExts : List String :=
  [".jpg", ".jpeg", ".png", ".gif", ".bmp", ".webp", ".tiff", ".tif", ".svg", ".ico"]

/-- The thumbnail route's output-format computation: `ext.slice(1)`,
with `gif` and `tiff` rewritten to `png`; every other extension,
`.tif` included, is kept as is. -/
def thumbOutputFormat (ext : String) : String :=
  let f := sliceOne ext
  if f = "gif" || f = "tiff" then "png" else f

/-- The thumbnail route's `GET`: reject a falsy `path` with 400; expand
a leading `~`; resolve; `stat`, rejecting missing targets (404) and
directories (400); reject extensions outside the allow-list with 400
before reading the file; return `.svg`/`.ico` bytes verbatim with
their native content-type; otherwise resize through `sharp` (modelled
by the abstract `sharpResize` parameter, which receives the bytes and
the requested size) and answer with content-type
`image/<thumbOutputFormat ext>`.  The `size` parameter stands for
`parseInt(searchParams.get('size') || '128')`. -/
def thumbnailGET (env : Env) (fsys : FileSystem)
    (sharpResize : List Nat → Int → List Nat) (size : Int)
    (pathParam : Option String) : ApiResponse × List Effect :=
  if missingParam pathParam then
    (.jsonError 400 "Missing path parameter", [])
  else
    let absolutePath := tildeResolve env (pathParam.getD "")
    match fsys.stat absolutePath with
    | none => (.jsonError 404 "File not found", [.statOp absolutePath])
    | some true =>
      (.jsonError 400 "Path is a directory, not a file", [.statOp absolutePath])
    | some false =>
      let ext := toLowerCase (extname absolutePath)
      if !supportedImageExts.contains ext then
        (.jsonError 400 "File is not a supported image type", [.statOp absolutePath])
      else
        let fileBuffer := fsys.readFileBytes absolutePath
        if ext = ".svg" || ext = ".ico" then
          (.fileBytes 200 (if ext = ".svg" then "image/svg+xml" else "image/x-icon")
              fileBuffer,
            [.statOp absolutePath, .readFileOp absolutePath])
        else
          (.fileBytes 200 ("image/" ++ thumbOutputFormat ext)
              (sharpResize fileBuffer size),
            [.statOp absolutePath, .readFileOp absolutePath, .decodeResize])

/-! ## Directory-listing endpoint (`src/app/api/fs/list/route.ts`) -/

/-- The comparator passed to `Array.prototype.sort` by the listing
route: directories strictly before files, then
`a.name.localeCompare(b.name)`, the latter supplied as the abstract
integer-valued comparison `lcmp`. -/
def entryCompare (lcmp : String → String → Int) (a b : String × Bool) : Int :=
  if a.2 && !b.2 then -1
  else if !a.2 && b.2 then 1
  else lcmp a.1 b.1

/-- The listing route's sort.  `Array.prototype.sort` is specified to be
stable, and with the consistent comparator `entryCompare` its result is
the unique stable order, which insertion sort computes. -/
def sortEntries (lcmp : String → String → Int) (l : List (String × Bool)) :
    List (String × Bool) :=
  List.insertionSort (fun a b => entryCompare lcmp a b ≤ 0) l

/-- One formatted item of the listing response: kind string, path made
relative to the project root with backslashes flattened, lower-cased
extension (empty for directories). -/
def mkListItem (rootDir absolutePath : String) (e : String × Bool) : ListItem :=
  { name := e.1
    type := if e.2 then "directory" else "file"
    path := (pathRelative rootDir (pathJoin absolutePath e.1)).replace "\\" "/"
    ext := if e.2 then "" else toLowerCase (extname e.1) }

/-- The listing route's `GET`: a falsy `path` parameter falls back to
`'~'`; expand a leading `~`; resolve; `stat`, rejecting missing targets
(404) and non-directories (400); `readdir`; drop hidden entries (names
starting with `.`); sort directories-first then by name; format. -/
def listGET (env : Env) (fsys : FileSystem) (lcmp : String → String → Int)
    (pathParam : Option String) : ApiResponse × List Effect :=
  let dirPath0 := if missingParam pathParam then "~" else pathParam.getD ""
  let absolutePath := tildeResolve env dirPath0
  match fsys.stat absolutePath with
  | none => (.jsonError 404 "Directory not found", [.statOp absolutePath])
  | some false =>
    (.jsonError 400 "Path is not a directory", [.statOp absolutePath])
  | some true =>
    let items := fsys.readdir absolutePath
    let filtered := items.filter (fun it => !strStartsWith it.1 ".")
    let sorted := sortEntries lcmp filtered
    (.listingOk (absolutePath.replace "\\" "/") absolutePath
        (sorted.map (mkListItem env.cwd absolutePath)),
      [.statOp absolutePath, .readdirOp absolutePath])

/-- The items of a listing response, empty for error responses. -/
def responseItems : ApiResponse → List ListItem
  | .listingOk _ _ items => items
  | _ => []

/-! ## Client-side viewer and prefetch scheduler (the page component) -/

/-- Constant `PRELOAD_BATCH_SIZE` from the page component. -/
def PRELOAD_BATCH_SIZE : Nat := 20

/-- Constant `IMAGE_EXTS` from the page component. -/
def IMAGE_EXTS : List String :=
  [".jpg", ".jpeg", ".png", ".gif", ".bmp", ".webp", ".svg", ".tiff", ".tif", ".ico"]

/-- The viewer's client state: the image sublist of the current
directory, the current index and path, the set of already-warmed image
paths (`preloadedImages`, kept as an insertion-ordered duplicate-free
list), and the high-water mark `lastPreloadedIndex`. -/
structure ViewerState where
  imageList : List ListItem
  currentImageIndex : Nat
  currentImagePath : String
  preloadedImages : List String
  lastPreloadedIndex : Int
deriving DecidableEq, Repr

/-- Function `preloadImages(startIndex, count)`: no-op on an empty image list;
otherwise warm indices `startIndex ≤ i < min (startIndex + count)
imageList.length` whose path is not yet in the warmed set, and set the
high-water mark to `endIndex - 1`.  Returns the new warmed set and
high-water mark. -/
def preloadImages (imageList : List ListItem) (preloaded : List String)
    (lastIdx : Int) (startIndex count : Nat) : List String × Int :=
  if imageList.length = 0 then (preloaded, lastIdx)
  else
    let endIndex := min (startIndex + count) imageList.length
    let newPreloaded := (List.range' startIndex (endIndex - startIndex)).foldl
      (fun acc i =>
        let p := (imageList.getD i default).path
        if acc.contains p then acc else acc ++ [p])
      preloaded
    (newPreloaded, (endIndex : Int) - 1)

/-- Function `openImageViewerWithPreload(item)`: filter the directory items down
to image files, locate the activated item by path (`none` when absent,
as the source returns early on `findIndex === -1`), reset the preload
state to the empty set and high-water mark `-1`, then warm one batch
starting at the activated index. -/
def openImageViewerWithPreload (items : List ListItem) (item : ListItem) :
    Option ViewerState :=
  let imageItems := items.filter
    (fun it => it.type == "file" && IMAGE_EXTS.contains (toLowerCase it.ext))
  match imageItems.findIdx? (fun img => img.path == item.path) with
  | none => none
  | some index =>
    let warmed := preloadImages imageItems [] (-1) index PRELOAD_BATCH_SIZE
    some { imageList := imageItems
           currentImageIndex := index
           currentImagePath := item.path
           preloadedImages := warmed.1
           lastPreloadedIndex := warmed.2 }

/-- The index step of `navigateImage`: `next` is `(i+1) % n`, `prev` is
`(i-1+n) % n`, the latter computed on JS numbers, hence on integers. -/
def navNewIndex (i n : Nat) (next : Bool) : Nat :=
  if next then (i + 1) % n
  else (((i : Int) - 1 + (n : Int)) % (n : Int)).toNat

/-- Function `navigateImage(direction)`: no-op on an empty image list; otherwise
step the index by one with wraparound, and, when the new index lands
strictly above `lastPreloadedIndex - 10` while the high-water mark is
below the last index, warm the next batch starting right after the
high-water mark.  The returned flag records whether a warm was
triggered. -/
def navigateImage (st : ViewerState) (next : Bool) : ViewerState × Bool :=
  if st.imageList.length = 0 then (st, false)
  else
    let n := st.imageList.length
    let newIndex : Nat := navNewIndex st.currentImageIndex n next
    if (newIndex : Int) > st.lastPreloadedIndex - 10 ∧
        st.lastPreloadedIndex < (n : Int) - 1 then
      let warmed := preloadImages st.imageList st.preloadedImages
        st.lastPreloadedIndex (st.lastPreloadedIndex + 1).toNat PRELOAD_BATCH_SIZE
      ({ st with currentImageIndex := newIndex
                 currentImagePath := (st.imageList.getD newIndex default).path
                 preloadedImages := warmed.1
                 lastPreloadedIndex := warmed.2 }, true)
    else
      ({ st with currentImageIndex := newIndex
                 currentImagePath := (st.imageList.getD newIndex default).path }, false)

/-- Iterate `navigateImage` in the `next` direction `k` times,
or-accumulating whether any step triggered warming. -/
def navigateNextN : Nat → ViewerState → ViewerState × Bool
  | 0, st => (st, false)
  | k + 1, st =>
    let step := navigateImage st true
    let rest := navigateNextN k step.1
    (rest.1, step.2 || rest.2)

/-! ## Reference definition from the specification and concrete fixtures -/

/-- Modelled from the spec: root confinement by whole path segments.
The specification requires "prefix match on path segments, not raw
strings, to avoid `/root-evil` matching `/root`"; this definition
follows those words, to be compared with the raw `String.startsWith`
check the file route actually performs. -/
def specSegmentConfined (root p : String) : Bool :=
  (resolveDots [] (segsOf root)).isPrefixOf (resolveDots [] (segsOf p))

/-- A concrete environment: project root `/proj`, home `/home/u`,
`ALLOW_OUTSIDE_ROOT` unset (the default). -/
def defEnv : Env := ⟨"/proj", "/home/u", none⟩

/-- A filesystem with no entries at all. -/
def noFs : FileSystem := ⟨fun _ => none, fun _ => [], fun _ => []⟩

/-- A filesystem whose only entry is the file `/outside/a.png`,
which lies outside the `/proj` root. -/
def outsideFs : FileSystem :=
  ⟨fun q => if q = "/outside/a.png" then some false else none,
   fun _ => [], fun _ => [1]⟩

/-- A filesystem whose only entry is the file `/proj-evil/a.png`:
a sibling of the root `/proj` whose name extends the root's last
segment. -/
def evilFs : FileSystem :=
  ⟨fun q => if q = "/proj-evil/a.png" then some false else none,
   fun _ => [], fun _ => [7]⟩

/-- A filesystem whose only entry is the TIFF file `/proj/a.tif`. -/
def tifFs : FileSystem :=
  ⟨fun q => if q = "/proj/a.tif" then some false else none,
   fun _ => [], fun _ => [3]⟩

/-- A filesystem whose only entry is the JPEG file `/proj/b.jpg`. -/
def jpgFs : FileSystem :=
  ⟨fun q => if q = "/proj/b.jpg" then some false else none,
   fun _ => [], fun _ => [5]⟩

/-- A filesystem whose only entry is the text file `/proj/a.txt`. -/
def txtFs : FileSystem :=
  ⟨fun q => if q = "/proj/a.txt" then some false else none,
   fun _ => [], fun _ => [2]⟩

/-- A filesystem with one directory `/d` holding two files, two
directories and one hidden file. -/
def demoFs : FileSystem :=
  ⟨fun q => if q = "/d" then some true else none,
   fun q => if q = "/d" then
      [("b.png", false), ("sub2", true), (".hidden", false),
       ("a.png", false), ("sub1", true)]
    else [],
   fun _ => []⟩

/-- A concrete name comparator standing in for `localeCompare`:
sign of the lexicographic comparison. -/
def demoCmp (a b : String) : Int :=
  if a < b then -1 else if b < a then 1 else 0

/-- A resizer stub returning a fixed byte string. -/
def oneSharp : List Nat → Int → List Nat := fun _ _ => [9]

/-- Distinct short names for building concrete image lists. -/
def natName (i : Nat) : String := String.mk (List.replicate i 'a')

/-- A directory listing of 25 image files with pairwise distinct paths. -/
def c8Items : List ListItem :=
  (List.range 25).map (fun i => ⟨natName i, "file", natName i, ".png"⟩)

/-- The viewer session opened on `c8Items` at the image of index 10. -/
def c8Open : Option ViewerState :=
  openImageViewerWithPreload c8Items ⟨natName 10, "file", natName 10, ".png"⟩

/-- The opened session state (its default is irrelevant: `c8Open`
is `some`). -/
def c8St : ViewerState := c8Open.getD ⟨[], 0, "", [], -1⟩

/-- A directory listing of 22 image files with pairwise distinct paths. -/
def c9Items : List ListItem :=
  (List.range 22).map (fun i => ⟨natName i, "file", natName i, ".png"⟩)

/-- A viewer state over 22 images at index 11 whose high-water mark
is 20: navigating `prev` lands on index 10, exactly 10 positions below
the high-water mark. -/
def c9St : ViewerState := ⟨c9Items, 11, natName 11, [], 20⟩

/-- A viewer state over 22 images at index 5 with high-water mark 20,
used to witness the warm-trigger characterization. -/
def c9wSt : ViewerState := ⟨c9Items, 5, natName 5, [], 20⟩

/-- A three-image viewer state at index 0 with nothing preloaded. -/
def c7St : ViewerState :=
  ⟨[⟨"a", "file", "pa", ".png"⟩, ⟨"b", "file", "pb", ".png"⟩,
    ⟨"c", "file", "pc", ".png"⟩], 0, "pa", [], -1⟩

/-! ## Helper lemmas -/

theorem list_never_403 (env : Env) (fsys : FileSystem)
    (lcmp : String → String → Int) (q : Option String) :
    respStatus (listGET env fsys lcmp q).1 ≠ 403 := by
  unfold listGET
  rcases h : fsys.stat (tildeResolve env (if missingParam q then "~" else q.getD ""))
    with - | b
  · simp [h, respStatus]
  · cases b <;> simp [h, respStatus]

theorem thumb_never_403 (env : Env) (fsys : FileSystem)
    (sharpResize : List Nat → Int → List Nat) (size : Int) (q : Option String) :
    respStatus (thumbnailGET env fsys sharpResize size q).1 ≠ 403 := by
  unfold thumbnailGET
  split
  · simp [respStatus]
  · rcases h : fsys.stat (tildeResolve env (q.getD "")) with - | b
    · simp [h, respStatus]
    · cases b
      · simp only [h]
        split
        · simp [respStatus]
        · split <;> simp [respStatus]
      · simp [h, respStatus]

theorem thumb_trace (env : Env) (fsys : FileSystem)
    (sharpResize : List Nat → Int → List Nat) (size : Int) (p : String)
    (hp : p ≠ "") :
    ((thumbnailGET env fsys sharpResize size (some p)).2.filterMap effPath).all
      (fun q => q == tildeResolve env p) = true := by
  have hm : missingParam (some p) = false := by simp [missingParam, hp]
  unfold thumbnailGET
  rw [hm]
  simp only [Bool.false_eq_true, if_false, Option.getD_some]
  rcases h : fsys.stat (tildeResolve env p) with - | b
  · simp [h, effPath]
  · cases b
    · simp only [h]
      split
      · simp [effPath]
      · split <;> simp [effPath]
    · simp [h, effPath]

theorem list_trace (env : Env) (fsys : FileSystem) (lcmp : String → String → Int)
    (p : String) (hp : p ≠ "") :
    ((listGET env fsys lcmp (some p)).2.filterMap effPath).all
      (fun q => q == tildeResolve env p) = true := by
  have hm : missingParam (some p) = false := by simp [missingParam, hp]
  unfold listGET
  rw [hm]
  simp only [Bool.false_eq_true, if_false, Option.getD_some]
  rcases h : fsys.stat (tildeResolve env p) with - | b
  · simp [h, effPath]
  · cases b <;> simp [h, effPath]

theorem file_trace (env : Env) (fsys : FileSystem) (p : String) (hp : p ≠ "") :
    ((fileGET env fsys (some p)).2.filterMap effPath).all
      (fun q => q == pathResolve env.cwd p) = true := by
  have hm : missingParam (some p) = false := by simp [missingParam, hp]
  unfold fileGET
  rw [hm]
  simp only [Bool.false_eq_true, if_false, Option.getD_some]
  split
  · simp
  · rcases h : fsys.stat (pathResolve env.cwd p) with - | b
    · simp [h, effPath]
    · cases b <;> simp [h, effPath]

theorem nav_index (st : ViewerState) (next : Bool)
    (h0 : st.imageList.length ≠ 0) :
    (navigateImage st next).1.currentImageIndex =
      navNewIndex st.currentImageIndex st.imageList.length next := by
  unfold navigateImage
  rw [if_neg h0]
  dsimp only
  split <;> rfl

theorem prev_toNat (i n : Nat) (h0 : 0 < n) :
    (((i : Int) - 1 + (n : Int)) % (n : Int)).toNat = (i + n - 1) % n := by
  have h1 : ((i : Int) - 1 + (n : Int)) = ((i + n - 1 : Nat) : Int) := by omega
  rw [h1, ← Int.natCast_mod, Int.toNat_natCast]

theorem warm_fold_mem (il : List ListItem) (idxs : List Nat) (acc : List String)
    (q : String)
    (hq : q ∈ idxs.foldl
      (fun acc i =>
        let p := (il.getD i default).path
        if acc.contains p then acc else acc ++ [p]) acc) :
    q ∈ acc ∨ ∃ i ∈ idxs, q = (il.getD i default).path := by
  induction idxs generalizing acc with
  | nil => exact Or.inl hq
  | cons i is ih =>
    simp only [List.foldl_cons] at hq
    rcases ih _ hq with h | ⟨j, hj, hjq⟩
    · by_cases hc : acc.contains (il.getD i default).path
      · rw [if_pos hc] at h
        exact Or.inl h
      · rw [if_neg hc] at h
        rcases List.mem_append.mp h with h' | h'
        · exact Or.inl h'
        · right
          exact ⟨i, List.mem_cons_self i is, List.mem_singleton.mp h'⟩
    · exact Or.inr ⟨j, List.mem_cons_of_mem i hj, hjq⟩

theorem preload_warms_only_set (il : List ListItem) (preloaded : List String)
    (lastIdx : Int) (s c : Nat) :
    ((preloadImages il preloaded lastIdx s c).1).all
      (fun q => preloaded.contains q || (il.map ListItem.path).contains q) = true := by
  unfold preloadImages
  split
  · rw [List.all_eq_true]
    intro q hq
    rw [Bool.or_eq_true, List.elem_iff]
    exact Or.inl hq
  · rw [List.all_eq_true]
    intro q hq
    rw [Bool.or_eq_true, List.elem_iff, List.elem_iff]
    rcases warm_fold_mem il _ _ q hq with h | ⟨i, hi, hiq⟩
    · exact Or.inl h
    · right
      rw [List.mem_range'_1] at hi
      have h2 : min (s + c) il.length ≤ il.length := min_le_right _ _
      have hlt : i < il.length := by omega
      rw [hiq, List.getD_eq_getElem il default hlt]
      exact List.mem_map_of_mem ListItem.path (List.getElem_mem hlt)

theorem demoCmp_le (a b : String) : demoCmp a b ≤ 0 ↔ a ≤ b := by
  unfold demoCmp
  rcases lt_trichotomy a b with h | h | h
  · rw [if_pos h]
    simp [le_of_lt h]
  · subst h
    rw [if_neg (lt_irrefl a), if_neg (lt_irrefl a)]
    simp
  · rw [if_neg (not_lt_of_gt h), if_pos h]
    simp [not_le_of_gt h]

theorem demoCmp_total (a b : String) : demoCmp a b ≤ 0 ∨ demoCmp b a ≤ 0 := by
  rcases le_total a b with h | h
  · exact Or.inl ((demoCmp_le a b).mpr h)
  · exact Or.inr ((demoCmp_le b a).mpr h)

theorem demoCmp_trans (a b c : String) (hab : demoCmp a b ≤ 0)
    (hbc : demoCmp b c ≤ 0) : demoCmp a c ≤ 0 :=
  (demoCmp_le a c).mpr (le_trans ((demoCmp_le a b).mp hab) ((demoCmp_le b c).mp hbc))

/-! ## Claim theorems -/

/-- C1 (counterexample): the claim says every endpoint rejects an
out-of-root request with 403 before any filesystem call, but the
thumbnail endpoint applies no confinement check at all: with the
default configuration (root `/proj`, `ALLOW_OUTSIDE_ROOT` unset), a
thumbnail request for `/outside/a.png` — outside the root under both
the raw-prefix and the segment-wise reading — is answered 200 after a
`stat`, a file read and a resize. -/
theorem c1_counterexample_thumbnail_serves_outside_root :
    strStartsWith "/outside/a.png" "/proj" = false ∧
    specSegmentConfined "/proj" "/outside/a.png" = false ∧
    thumbnailGET defEnv outsideFs oneSharp 128 (some "/outside/a.png") =
      (.fileBytes 200 "image/png" [9],
       [.statOp "/outside/a.png", .readFileOp "/outside/a.png",
        .decodeResize]) := by decide

/-- C1 (amended): only the file-streaming endpoint enforces
confinement.  With `ALLOW_OUTSIDE_ROOT` unset, it answers 403
`AccessDenied` with an empty effect trace — before any filesystem
call — whenever the resolved path fails the raw string-prefix check
against the root; the listing and thumbnail endpoints never answer
403 for any input. -/
theorem c1_confinement_only_file_endpoint (env : Env) (fsys : FileSystem)
    (p : String) (hp : p ≠ "")
    (hallow : allowOutside env.allowOutsideVar = false)
    (hpre : strStartsWith (pathResolve env.cwd p) env.cwd = false) :
    fileGET env fsys (some p) = (.jsonError 403 accessDeniedMsg, []) ∧
    (∀ lcmp q, respStatus (listGET env fsys lcmp q).1 ≠ 403) ∧
    (∀ sharpResize size q,
      respStatus (thumbnailGET env fsys sharpResize size q).1 ≠ 403) := by
  refine ⟨?_, fun lcmp q => list_never_403 env fsys lcmp q,
    fun sharpResize size q => thumb_never_403 env fsys sharpResize size q⟩
  simp [fileGET, missingParam, hp, hallow, hpre]

/-- C1 (witness): the amended statement at the default environment and
the out-of-root request `/etc/passwd`. -/
theorem c1_witness :
    ("/etc/passwd" ≠ "") ∧
    allowOutside defEnv.allowOutsideVar = false ∧
    strStartsWith (pathResolve defEnv.cwd "/etc/passwd") defEnv.cwd = false ∧
    fileGET defEnv noFs (some "/etc/passwd") =
      (.jsonError 403 accessDeniedMsg, []) :=
  ⟨by decide, by decide, by decide,
    (c1_confinement_only_file_endpoint defEnv noFs "/etc/passwd"
      (by decide) (by decide) (by decide)).1⟩

/-- C2 (code bug): the file route's own comment promises access only
under the project root, and the spec demands segment-wise prefix
matching, but the code compares raw strings: with root `/proj`, the
request `../proj-evil/a.png` resolves to the sibling
`/proj-evil/a.png`, passes the raw `startsWith` check although it is
not a segment-wise descendant of the root, and is served 200 with its
bytes instead of being rejected with `AccessDenied`. -/
theorem c2_raw_prefix_admits_sibling :
    pathResolve "/proj" "../proj-evil/a.png" = "/proj-evil/a.png" ∧
    strStartsWith "/proj-evil/a.png" "/proj" = true ∧
    specSegmentConfined "/proj" "/proj-evil/a.png" = false ∧
    fileGET defEnv evilFs (some "../proj-evil/a.png") =
      (.fileBytes 200 "image/png" [7],
       [.statOp "/proj-evil/a.png", .readFileOp "/proj-evil/a.png"]) := by
  decide

/-- C3 (counterexample): the claim says every endpoint expands a
leading `~` before any filesystem access, but the file-streaming
endpoint performs no tilde expansion: it resolves the literal `~/x`
against the project root and stats `/proj/~/x`, not the home
directory joined with `x`. -/
theorem c3_counterexample_file_endpoint_no_tilde :
    fileGET defEnv noFs (some "~/x") =
      (.jsonError 404 "File not found", [.statOp "/proj/~/x"]) ∧
    pathJoin defEnv.homeDir (sliceOne "~/x") = "/home/u/x" ∧
    ("/proj/~/x" : String) ≠ "/home/u/x" := by decide

/-- C3 (amended): the listing and thumbnail endpoints replace a leading
`~` by joining the remainder onto the home directory before any
filesystem access — every filesystem operation they issue targets the
expanded resolved path — while the file-streaming endpoint performs no
expansion and targets the literal path resolved against the project
root. -/
theorem c3_tilde_expansion_only_list_and_thumbnail (env : Env)
    (fsys : FileSystem) (sharpResize : List Nat → Int → List Nat) (size : Int)
    (lcmp : String → String → Int) (p : String)
    (hp : strStartsWith p "~" = true) :
    (((thumbnailGET env fsys sharpResize size (some p)).2.filterMap effPath).all
        (fun q => q == pathResolve env.cwd (pathJoin env.homeDir (sliceOne p)))
      = true) ∧
    (((listGET env fsys lcmp (some p)).2.filterMap effPath).all
        (fun q => q == pathResolve env.cwd (pathJoin env.homeDir (sliceOne p)))
      = true) ∧
    (((fileGET env fsys (some p)).2.filterMap effPath).all
        (fun q => q == pathResolve env.cwd p) = true) := by
  have hp0 : p ≠ "" := by
    intro h
    rw [h] at hp
    exact absurd hp (by decide)
  have habs : tildeResolve env p =
      pathResolve env.cwd (pathJoin env.homeDir (sliceOne p)) := by
    simp [tildeResolve, expandTilde, hp]
  refine ⟨?_, ?_, ?_⟩
  · rw [← habs]
    exact thumb_trace env fsys sharpResize size p hp0
  · rw [← habs]
    exact list_trace env fsys lcmp p hp0
  · exact file_trace env fsys p hp0

/-- C3 (witness): the amended statement at `~/pics`, together with the
concrete expansion of `~/x`. -/
theorem c3_witness :
    strStartsWith "~/pics" "~" = true ∧
    pathResolve defEnv.cwd (pathJoin defEnv.homeDir (sliceOne "~/x"))
      = "/home/u/x" ∧
    (((listGET defEnv noFs demoCmp (some "~/pics")).2.filterMap effPath).all
        (fun q =>
          q == pathResolve defEnv.cwd (pathJoin defEnv.homeDir (sliceOne "~/pics")))
      = true) :=
  ⟨by decide, by decide,
    (c3_tilde_expansion_only_list_and_thumbnail defEnv noFs oneSharp 128 demoCmp
      "~/pics" (by decide)).2.1⟩

/-- C4 (counterexample): the claim says TIFF inputs are normalized to
PNG, but a TIFF file with the `.tif` extension is not: its thumbnail
response carries content-type `image/tif`, not `image/png`. -/
theorem c4_counterexample_tif_not_png :
    thumbnailGET defEnv tifFs oneSharp 128 (some "/proj/a.tif") =
      (.fileBytes 200 "image/tif" [9],
       [.statOp "/proj/a.tif", .readFileOp "/proj/a.tif", .decodeResize]) ∧
    ("image/tif" : String) ≠ "image/png" ∧
    ("image/tif" : String) ≠ "image/tiff" := by decide

/-- C4 (amended): for an existing supported image file, `.svg` and
`.ico` are returned verbatim with their native content-type and no
resize; every other supported extension is resized and answered with
content-type `image/<ext-without-dot>` where only the exact extensions
`.gif` and `.tiff` are rewritten to `png` — `.tif` stays `tif`.  The
code requests no byte-format conversion from the resizer: the payload
is exactly the resizer's output on the original bytes. -/
theorem c4_thumbnail_content_type (env : Env) (fsys : FileSystem)
    (sharpResize : List Nat → Int → List Nat) (size : Int) (p : String)
    (hp : p ≠ "")
    (hstat : fsys.stat (tildeResolve env p) = some false)
    (hsupp : supportedImageExts.contains
      (toLowerCase (extname (tildeResolve env p))) = true) :
    (toLowerCase (extname (tildeResolve env p)) = ".svg" →
      thumbnailGET env fsys sharpResize size (some p) =
        (.fileBytes 200 "image/svg+xml" (fsys.readFileBytes (tildeResolve env p)),
         [.statOp (tildeResolve env p), .readFileOp (tildeResolve env p)])) ∧
    (toLowerCase (extname (tildeResolve env p)) = ".ico" →
      thumbnailGET env fsys sharpResize size (some p) =
        (.fileBytes 200 "image/x-icon" (fsys.readFileBytes (tildeResolve env p)),
         [.statOp (tildeResolve env p), .readFileOp (tildeResolve env p)])) ∧
    (toLowerCase (extname (tildeResolve env p)) ≠ ".svg" →
      toLowerCase (extname (tildeResolve env p)) ≠ ".ico" →
      thumbnailGET env fsys sharpResize size (some p) =
        (.fileBytes 200
           ("image/" ++ thumbOutputFormat (toLowerCase (extname (tildeResolve env p))))
           (sharpResize (fsys.readFileBytes (tildeResolve env p)) size),
         [.statOp (tildeResolve env p), .readFileOp (tildeResolve env p),
          .decodeResize])) ∧
    thumbOutputFormat ".gif" = "png" ∧
    thumbOutputFormat ".tiff" = "png" ∧
    thumbOutputFormat ".tif" = "tif" := by
  have hm : missingParam (some p) = false := by simp [missingParam, hp]
  refine ⟨?_, ?_, ?_, by decide, by decide, by decide⟩ <;>
  · intros
    unfold thumbnailGET
    rw [hm]
    simp only [Bool.false_eq_true, if_false, Option.getD_some, hstat]
    simp_all [hsupp]

/-- C4 (witness): the amended statement at the JPEG file `/proj/b.jpg`. -/
theorem c4_witness :
    ("/proj/b.jpg" ≠ "") ∧
    jpgFs.stat (tildeResolve defEnv "/proj/b.jpg") = some false ∧
    supportedImageExts.contains
      (toLowerCase (extname (tildeResolve defEnv "/proj/b.jpg"))) = true ∧
    thumbOutputFormat ".tiff" = "png" :=
  ⟨by decide, by decide, by decide,
    (c4_thumbnail_content_type defEnv jpgFs oneSharp 128 "/proj/b.jpg"
      (by decide) (by decide) (by decide)).2.2.2.2.1⟩

/-- C5: a thumbnail request for an existing non-directory file whose
lower-cased extension is outside the allow-list is answered 400
`UnsupportedType` with an effect trace of exactly one `stat` — the
file's bytes are never read and no decode is attempted, so the
extension check precedes any read or decode step. -/
theorem c5_unsupported_extension_rejected_before_read (env : Env)
    (fsys : FileSystem) (sharpResize : List Nat → Int → List Nat) (size : Int)
    (p : String) (hp : p ≠ "")
    (hstat : fsys.stat (tildeResolve env p) = some false)
    (hext : supportedImageExts.contains
      (toLowerCase (extname (tildeResolve env p))) = false) :
    thumbnailGET env fsys sharpResize size (some p) =
      (.jsonError 400 "File is not a supported image type",
       [.statOp (tildeResolve env p)]) := by
  have hext' : toLowerCase (extname (tildeResolve env p)) ∉ supportedImageExts := by
    simpa using hext
  simp [thumbnailGET, missingParam, hp, hstat, hext']

/-- C5 (witness): the statement at the text file `/proj/a.txt`. -/
theorem c5_witness :
    ("/proj/a.txt" ≠ "") ∧
    txtFs.stat (tildeResolve defEnv "/proj/a.txt") = some false ∧
    supportedImageExts.contains
      (toLowerCase (extname (tildeResolve defEnv "/proj/a.txt"))) = false ∧
    thumbnailGET defEnv txtFs oneSharp 128 (some "/proj/a.txt") =
      (.jsonError 400 "File is not a supported image type",
       [.statOp (tildeResolve defEnv "/proj/a.txt")]) :=
  ⟨by decide, by decide, by decide,
    c5_unsupported_extension_rejected_before_read defEnv txtFs oneSharp 128
      "/proj/a.txt" (by decide) (by decide) (by decide)⟩

/-- C6: in every listing response, after hidden entries are dropped,
every later directory entry is preceded only by directory entries
(directories before files), consecutive entries of the same kind are
in ascending comparator order, and the listing is a pure function of
environment, filesystem and comparator, so re-listing an unchanged
directory reproduces the identical ordering.  The hypotheses state
that the `localeCompare` comparator realises a total preorder, which
it does for a fixed locale. -/
theorem c6_listing_sorted_dirs_first (env : Env) (fsys : FileSystem)
    (lcmp : String → String → Int) (p : Option String)
    (htot : ∀ a b, lcmp a b ≤ 0 ∨ lcmp b a ≤ 0)
    (htrans : ∀ a b c, lcmp a b ≤ 0 → lcmp b c ≤ 0 → lcmp a c ≤ 0) :
    List.Pairwise
      (fun x y => (y.type = "directory" → x.type = "directory") ∧
        (x.type = y.type → lcmp x.name y.name ≤ 0))
      (responseItems (listGET env fsys lcmp p).1) ∧
    listGET env fsys lcmp p = listGET env fsys lcmp p := by
  refine ⟨?_, rfl⟩
  unfold listGET
  rcases h : fsys.stat (tildeResolve env (if missingParam p then "~" else p.getD ""))
    with - | b
  · simp [h, responseItems]
  · cases b
    · simp [h, responseItems]
    · simp only [h, responseItems]
      rw [List.pairwise_map]
      have hsorted :
          List.Pairwise (fun a b => entryCompare lcmp a b ≤ 0)
            (sortEntries lcmp ((fsys.readdir
                (tildeResolve env (if missingParam p then "~" else p.getD ""))).filter
              (fun it => !strStartsWith it.1 "."))) := by
        haveI : IsTotal (String × Bool) (fun a b => entryCompare lcmp a b ≤ 0) := by
          constructor
          intro ⟨na, ka⟩ ⟨nb, kb⟩
          cases ka <;> cases kb <;> simp [entryCompare] <;>
            first | omega | exact htot na nb
        haveI : IsTrans (String × Bool) (fun a b => entryCompare lcmp a b ≤ 0) := by
          constructor
          intro ⟨na, ka⟩ ⟨nb, kb⟩ ⟨nc, kc⟩
          cases ka <;> cases kb <;> cases kc <;>
            simp [entryCompare] <;> first | omega | exact htrans na nb nc
        exact List.sorted_insertionSort _ _
      refine hsorted.imp ?_
      intro ⟨na, ka⟩ ⟨nb, kb⟩ hab
      cases ka <;> cases kb <;> simp_all [entryCompare, mkListItem]

/-- C6 (witness): the statement at a concrete five-entry directory and
the lexicographic comparator. -/
theorem c6_witness :
    (∀ a b, demoCmp a b ≤ 0 ∨ demoCmp b a ≤ 0) ∧
    List.Pairwise
      (fun x y => (y.type = "directory" → x.type = "directory") ∧
        (x.type = y.type → demoCmp x.name y.name ≤ 0))
      (responseItems (listGET defEnv demoFs demoCmp (some "/d")).1) :=
  ⟨demoCmp_total,
    (c6_listing_sorted_dirs_first defEnv demoFs demoCmp (some "/d")
      demoCmp_total demoCmp_trans).1⟩

/-- C7: on a non-empty image list with a valid current index `i`,
navigating `next` yields `(i+1) % n`, navigating `prev` yields
`(i+n-1) % n`, both results are valid indices, `next` at the last
index wraps to 0, and `prev` at 0 wraps to the last index. -/
theorem c7_navigation_wraps (st : ViewerState)
    (h0 : 0 < st.imageList.length)
    (hi : st.currentImageIndex < st.imageList.length) :
    (navigateImage st true).1.currentImageIndex =
      (st.currentImageIndex + 1) % st.imageList.length ∧
    (navigateImage st false).1.currentImageIndex =
      (st.currentImageIndex + st.imageList.length - 1) % st.imageList.length ∧
    (navigateImage st true).1.currentImageIndex < st.imageList.length ∧
    (navigateImage st false).1.currentImageIndex < st.imageList.length ∧
    (st.currentImageIndex = st.imageList.length - 1 →
      (navigateImage st true).1.currentImageIndex = 0) ∧
    (st.currentImageIndex = 0 →
      (navigateImage st false).1.currentImageIndex = st.imageList.length - 1) := by
  have hne : st.imageList.length ≠ 0 := by omega
  have hnext : (navigateImage st true).1.currentImageIndex =
      (st.currentImageIndex + 1) % st.imageList.length :=
    nav_index st true hne
  have hprev : (navigateImage st false).1.currentImageIndex =
      (st.currentImageIndex + st.imageList.length - 1) % st.imageList.length := by
    rw [nav_index st false hne]
    exact prev_toNat _ _ h0
  refine ⟨hnext, hprev, ?_, ?_, ?_, ?_⟩
  · rw [hnext]
    exact Nat.mod_lt _ h0
  · rw [hprev]
    exact Nat.mod_lt _ h0
  · intro h
    rw [hnext, h]
    have e : st.imageList.length - 1 + 1 = st.imageList.length := by omega
    rw [e, Nat.mod_self]
  · intro h
    rw [hprev, h]
    have e : 0 + st.imageList.length - 1 = st.imageList.length - 1 := by omega
    rw [e]
    exact Nat.mod_eq_of_lt (by omega)

/-- C7 (witness): the statement at a three-image state at index 0,
where `prev` wraps to the last index. -/
theorem c7_witness :
    0 < c7St.imageList.length ∧
    (navigateImage c7St false).1.currentImageIndex =
      c7St.imageList.length - 1 :=
  ⟨by decide,
    (c7_navigation_wraps c7St (by decide) (by decide)).2.2.2.2.2 rfl⟩

/-- C8: opening a viewer session on 25 images at index 10 resets the
preload state and then warms exactly the paths of indices 10 through
24, leaving the high-water mark at 24; navigating forward eight times
to index 18 triggers no further warming; and in general warming never
produces a path outside the image set, so it never warms past the end
of the set. -/
theorem c8_open_viewer_warms_batch :
    (c8Open.map (fun st => (st.currentImageIndex, st.lastPreloadedIndex)) =
      some (10, 24)) ∧
    c8St.preloadedImages = (List.range' 10 15).map natName ∧
    (navigateNextN 8 c8St).2 = false ∧
    (navigateNextN 8 c8St).1.currentImageIndex = 18 ∧
    (∀ (il : List ListItem) (preloaded : List String) (lastIdx : Int) (s c : Nat),
      ((preloadImages il preloaded lastIdx s c).1).all
        (fun q => preloaded.contains q || (il.map ListItem.path).contains q)
        = true) :=
  ⟨by decide, by decide, by decide, by decide, preload_warms_only_set⟩

/-- C9 (counterexample): the claim says a navigation landing exactly 10
positions below the high-water mark triggers warming, but the code
requires the new index to lie strictly above `highWaterMark - 10`:
from index 11 with high-water mark 20 over 22 images, navigating
`prev` lands on index 10 — exactly 10 below the mark, with the mark
still short of the last index — yet no warming is triggered. -/
theorem c9_counterexample_exactly_ten_below :
    (navigateImage c9St false).1.currentImageIndex = 10 ∧
    (navigateImage c9St false).2 = false ∧
    c9St.lastPreloadedIndex - 10 ≤ 10 ∧
    c9St.lastPreloadedIndex < (c9St.imageList.length : Int) - 1 := by decide

/-- C9 (amended): on a non-empty image list, a navigation warms the
next batch if and only if the high-water mark exceeds the new index by
at most 9 — equivalently the new index is strictly greater than
`highWaterMark - 10` — and the high-water mark is below the last index
of the set. -/
theorem c9_warm_trigger_within_nine (st : ViewerState) (next : Bool)
    (h0 : 0 < st.imageList.length) :
    ((navigateImage st next).2 = true ↔
      (st.lastPreloadedIndex - ((navigateImage st next).1.currentImageIndex : Int) ≤ 9 ∧
       st.lastPreloadedIndex < (st.imageList.length : Int) - 1)) := by
  have hne : st.imageList.length ≠ 0 := by omega
  unfold navigateImage
  rw [if_neg hne]
  dsimp only
  split
  next h => simpa using ⟨by omega, h.2⟩
  next h =>
    simp only [Bool.false_eq_true, false_iff]
    intro hc
    exact h ⟨by omega, hc.2⟩

/-- C9 (witness): the amended statement at a 22-image state at index 5
with high-water mark 20, where navigating `next` lands 14 below the
mark and triggers no warm. -/
theorem c9_witness :
    0 < c9wSt.imageList.length ∧
    ((navigateImage c9wSt true).2 = true ↔
      (c9wSt.lastPreloadedIndex -
          ((navigateImage c9wSt true).1.currentImageIndex : Int) ≤ 9 ∧
       c9wSt.lastPreloadedIndex < (c9wSt.imageList.length : Int) - 1)) :=
  ⟨by decide, c9_warm_trigger_within_nine c9wSt true (by decide)⟩

/-- C10: a falsy `path` parameter (absent or empty) is rejected 400
with no filesystem access by the file and thumbnail endpoints, while
the listing endpoint substitutes `~` for it — both the absent and the
empty parameter produce exactly the listing of `~` — and, in the
concrete default environment, the first filesystem operation of the
parameterless listing targets the home directory `/home/u`. -/
theorem c10_missing_path_asymmetry (env : Env) (fsys : FileSystem)
    (lcmp : String → String → Int)
    (sharpResize : List Nat → Int → List Nat) (size : Int) :
    fileGET env fsys none = (.jsonError 400 "Missing path parameter", []) ∧
    fileGET env fsys (some "") = (.jsonError 400 "Missing path parameter", []) ∧
    thumbnailGET env fsys sharpResize size none =
      (.jsonError 400 "Missing path parameter", []) ∧
    thumbnailGET env fsys sharpResize size (some "") =
      (.jsonError 400 "Missing path parameter", []) ∧
    listGET env fsys lcmp none = listGET env fsys lcmp (some "~") ∧
    listGET env fsys lcmp (some "") = listGET env fsys lcmp (some "~") ∧
    (listGET defEnv fsys lcmp none).2.head? = some (.statOp "/home/u") := by
  refine ⟨rfl, rfl, rfl, rfl, rfl, rfl, ?_⟩
  have e1 : tildeResolve defEnv
      (if missingParam (none : Option String) then "~"
       else (none : Option String).getD "") = "/home/u" := by decide
  unfold listGET
  simp only [e1]
  rcases h : fsys.stat "/home/u" with - | b
  · simp [h]
  · cases b <;> simp [h]
